import Mathlib

/-!
Verification development for the dygraphs `Tooltip` plugin
(`src/plugins/tooltip.js`).

The file shallowly embeds the code of the plugin:
the dash-pattern renderer `generateTooltipDashHTML`, the HTML fragment
generator `tooltip.generateTooltipHTML` together with its `escapeHTML`
helper, and the stateful `select` and `deselect` handlers.

Modelling conventions:
* JavaScript numbers are embedded as `ℚ`.  The one place where a
  non-finite value drives control flow is the `loop` computation in
  `generateTooltipDashHTML` (division by a zero denominator); that case is
  modelled explicitly, see the comments in the definition.
* HTML output is modelled structurally: markup text as `String` pieces and
  the emitted dash `div`s as `TooltipDiv` values carrying their
  `margin-right` and `padding-left` em amounts and their color.  The
  number-to-decimal-text conversion performed implicitly by the `+`
  string concatenation of JavaScript is not re-modelled; the numbers are
  kept as `ℚ` fields.
* A JavaScript loop that provably never terminates is modelled by the
  value `none : Option _`; any result `some v` means the code returns `v`.
-/

namespace DygraphsTooltip

/-- A JavaScript number as far as this plugin is concerned: a finite
rational or one of the non-finite values. -/
inductive JSNum where
  | num : ℚ → JSNum
  | posInf : JSNum
  | negInf : JSNum
  | nan : JSNum
deriving DecidableEq, Repr

/-- One inline block emitted by `generateTooltipDashHTML`:
either the single solid-line swatch
(`padding-left: 1em; height: 1px; border-bottom: 2px solid color`)
or a dash block
(`margin-right: <m>em; padding-left: <p>em; height: 1px;
border-bottom: 2px solid color`). -/
inductive TooltipDiv where
  | solid : String → TooltipDiv
  | dash : ℚ → ℚ → String → TooltipDiv
deriving DecidableEq, Repr

/-- Em width of one emitted block: `padding-left + margin-right`.
The solid swatch has `padding-left: 1em` and no margin. -/
def emOf : TooltipDiv → ℚ
  | TooltipDiv.solid _ => 1
  | TooltipDiv.dash m p _ => p + m

/-- Total rendered width, in em, of a block list. -/
def totalEm (l : List TooltipDiv) : ℚ := (l.map emOf).sum

/-- The accumulation loop
`for (i = 0; i <= strokePattern.length; i++)
   strokePixelLength += strokePattern[i % strokePattern.length];`
of `generateTooltipDashHTML`. -/
def strokePixelLength (pat : List ℚ) : ℚ :=
  (List.range (pat.length + 1)).foldl
    (fun acc i => acc + pat.getD (i % pat.length) 0) 0

/-- The inner emission loop of `generateTooltipDashHTML`:
`for (i = 0; i < segmentLoop; i += 2)` emits one block with
`paddingLeft = normalizedPattern[i % normalizedPattern.length]` and
`marginRight = normalizedPattern[(i+1) % normalizedPattern.length]` when
`i < strokePattern.length`, else `marginRight = 0`.  The loop indices
`i = 0, 2, 4, ...` below `segmentLoop` are enumerated as `2 * k` for
`k < (segmentLoop + 1) / 2`. -/
def innerBlocks (np : List ℚ) (strokeLen segmentLoop : ℕ) (color : String) :
    List TooltipDiv :=
  (List.range ((segmentLoop + 1) / 2)).map (fun k =>
    TooltipDiv.dash
      (if 2 * k < strokeLen then np.getD ((2 * k + 1) % np.length) 0 else 0)
      (np.getD ((2 * k) % np.length) 0)
      color)

/-- The `loop > 1` branch of `generateTooltipDashHTML`: the pattern is
normalized by `oneEmWidth` (`normalizedPattern[i] =
strokePattern[i]/oneEmWidth`), `segmentLoop = normalizedPattern.length`,
and the outer loop `for (j = 0; j < loop; j++)` repeats the emission
`loopN` times. -/
def tileBlocks (pat : List ℚ) (color : String) (oneEmWidth : ℚ) (loopN : ℕ) :
    List TooltipDiv :=
  List.flatten (List.replicate loopN
    (innerBlocks (pat.map (fun v => v / oneEmWidth)) pat.length pat.length color))

/-- The `else` (squeeze) branch of `generateTooltipDashHTML`: `loop = 1`,
the pattern is normalized by `strokePixelLength`
(`normalizedPattern[i] = strokePattern[i]/strokePixelLength`) and
`segmentLoop = normalizedPattern.length + 1`, so the first segment is
re-drawn once at the end. -/
def squeezeBlocks (pat : List ℚ) (color : String) : List TooltipDiv :=
  innerBlocks (pat.map (fun v => v / strokePixelLength pat))
    pat.length (pat.length + 1) color

/-- Embedding of `generateTooltipDashHTML(strokePattern, color, oneEmWidth)`.

`strokePattern` is `none` when the option is absent (`!strokePattern`);
note that in JavaScript an empty array is truthy, so the empty pattern is
handled by the `strokePattern.length <= 1` test, as here.

The JavaScript computes
`loop = Math.floor(oneEmWidth/(strokePixelLength-strokePattern[0]))`.
When the denominator is zero this is IEEE division:
* `oneEmWidth > 0` gives `loop = Math.floor(Infinity) = Infinity`;
  `Infinity > 1` holds, so the tile branch runs
  `for (j = 0; j < Infinity; j++)` and never terminates — modelled as
  `none`;
* `oneEmWidth = 0` gives `NaN` and `oneEmWidth < 0` gives `-Infinity`;
  both fail `loop > 1`, so the squeeze branch is taken.
With a nonzero denominator the division is exact rational division and
`Math.floor` is `Int.floor`.

In the squeeze branch the JavaScript divides by `strokePixelLength`; here
that is `ℚ` division (which yields `0` instead of the IEEE `NaN`/`Infinity`
text when `strokePixelLength = 0`; that corner needs a pattern with
negative entries, or an all-zero pattern together with a non-positive
budget, and is outside every property proved below). -/
def generateTooltipDashHTML : Option (List ℚ) → String → ℚ →
    Option (List TooltipDiv)
  | none, color, _ => some [TooltipDiv.solid color]
  | some pat, color, oneEmWidth =>
    if pat.length ≤ 1 then
      some [TooltipDiv.solid color]
    else if strokePixelLength pat - pat.getD 0 0 = 0 then
      (if 0 < oneEmWidth then none else some (squeezeBlocks pat color))
    else if 1 < ⌊oneEmWidth / (strokePixelLength pat - pat.getD 0 0)⌋ then
      some (tileBlocks pat color oneEmWidth
        (⌊oneEmWidth / (strokePixelLength pat - pat.getD 0 0)⌋).toNat)
    else
      some (squeezeBlocks pat color)

/-! ### Arithmetic helper lemmas -/

theorem foldl_add_map (g : ℕ → ℚ) :
    ∀ (l : List ℕ) (a : ℚ),
      List.foldl (fun acc i => acc + g i) a l = a + (l.map g).sum := by
  intro l
  induction l with
  | nil => intro a; simp
  | cons x xs ih =>
    intro a
    simp only [List.foldl_cons, List.map_cons, List.sum_cons]
    rw [ih]
    ring

theorem list_range_map_sum (f : ℕ → ℚ) :
    ∀ n : ℕ, ((List.range n).map f).sum = ∑ k ∈ Finset.range n, f k := by
  intro n
  induction n with
  | zero => simp
  | succ n ih =>
    rw [List.range_succ, List.map_append, List.sum_append,
      Finset.sum_range_succ, ih]
    simp

theorem sum_range_getD (l : List ℚ) :
    (∑ i ∈ Finset.range l.length, l.getD i 0) = l.sum := by
  induction l with
  | nil => simp
  | cons a t ih =>
    simp only [List.length_cons, List.sum_cons]
    rw [Finset.sum_range_succ']
    simp only [List.getD_cons_succ, List.getD_cons_zero, ih]
    ring

theorem sum_pair_range_getD (np : List ℚ) :
    ∀ m : ℕ,
      (∑ k ∈ Finset.range m, (np.getD (2 * k) 0 + np.getD (2 * k + 1) 0)) =
        ∑ i ∈ Finset.range (2 * m), np.getD i 0 := by
  intro m
  induction m with
  | zero => simp
  | succ m ih =>
    rw [Finset.sum_range_succ, ih,
      show 2 * (m + 1) = 2 * m + 1 + 1 by ring,
      Finset.sum_range_succ, Finset.sum_range_succ]
    ring

theorem map_div_sum (p : List ℚ) (x : ℚ) :
    (p.map (fun v => v / x)).sum = p.sum / x := by
  induction p with
  | nil => simp
  | cons a t ih =>
    simp only [List.map_cons, List.sum_cons, ih]
    rw [add_div]

theorem map_div_getD_zero (p : List ℚ) (x : ℚ) (h : p ≠ []) :
    (p.map (fun v => v / x)).getD 0 0 = p.getD 0 0 / x := by
  cases p with
  | nil => exact absurd rfl h
  | cons a t => simp

theorem getD_zero_mem (p : List ℚ) (h : p ≠ []) : p.getD 0 0 ∈ p := by
  cases p with
  | nil => exact absurd rfl h
  | cons a t => simp

/-! ### Properties of the helper loops -/

theorem strokePixelLength_eq (pat : List ℚ) (h : pat ≠ []) :
    strokePixelLength pat = pat.sum + pat.getD 0 0 := by
  unfold strokePixelLength
  rw [foldl_add_map, zero_add, List.range_succ, List.map_append,
    List.sum_append]
  have h1 : (List.range pat.length).map
      (fun i => pat.getD (i % pat.length) 0) =
      (List.range pat.length).map (fun i => pat.getD i 0) := by
    apply List.map_congr_left
    intro i hi
    rw [Nat.mod_eq_of_lt (List.mem_range.mp hi)]
  rw [h1, list_range_map_sum, sum_range_getD]
  simp [Nat.mod_self]

theorem totalEm_append (l1 l2 : List TooltipDiv) :
    totalEm (l1 ++ l2) = totalEm l1 + totalEm l2 := by
  unfold totalEm
  rw [List.map_append, List.sum_append]

theorem totalEm_flatten_replicate (n : ℕ) (l : List TooltipDiv) :
    totalEm (List.flatten (List.replicate n l)) = n * totalEm l := by
  induction n with
  | zero => simp [totalEm]
  | succ n ih =>
    rw [List.replicate_succ, List.flatten_cons, totalEm_append, ih]
    push_cast
    ring

theorem totalEm_innerBlocks (np : List ℚ) (sl seg : ℕ) (c : String) :
    totalEm (innerBlocks np sl seg c) =
      ∑ k ∈ Finset.range ((seg + 1) / 2),
        (np.getD ((2 * k) % np.length) 0 +
          if 2 * k < sl then np.getD ((2 * k + 1) % np.length) 0 else 0) := by
  unfold totalEm innerBlocks
  rw [List.map_map, list_range_map_sum]
  rfl

theorem innerBlocks_sum_tile_even (np : List ℚ) (m : ℕ) (c : String)
    (hL : np.length = 2 * m) :
    totalEm (innerBlocks np np.length np.length c) = np.sum := by
  rw [totalEm_innerBlocks, hL]
  have hK : (2 * m + 1) / 2 = m := by omega
  rw [hK]
  have hcong : ∀ k ∈ Finset.range m,
      (np.getD ((2 * k) % (2 * m)) 0 +
        if 2 * k < 2 * m then np.getD ((2 * k + 1) % (2 * m)) 0 else 0) =
      (np.getD (2 * k) 0 + np.getD (2 * k + 1) 0) := by
    intro k hk
    have hk1 : k < m := Finset.mem_range.mp hk
    have hk2 : 2 * k < 2 * m := by omega
    have hk3 : 2 * k + 1 < 2 * m := by omega
    rw [Nat.mod_eq_of_lt hk2, Nat.mod_eq_of_lt hk3, if_pos hk2]
  rw [Finset.sum_congr rfl hcong, sum_pair_range_getD]
  rw [show 2 * m = np.length from hL.symm, sum_range_getD]

theorem innerBlocks_sum_tile_odd (np : List ℚ) (m : ℕ) (c : String)
    (hL : np.length = 2 * m + 1) :
    totalEm (innerBlocks np np.length np.length c) =
      np.sum + np.getD 0 0 := by
  rw [totalEm_innerBlocks, hL]
  have hK : (2 * m + 1 + 1) / 2 = m + 1 := by omega
  rw [hK, Finset.sum_range_succ]
  have hcong : ∀ k ∈ Finset.range m,
      (np.getD ((2 * k) % (2 * m + 1)) 0 +
        if 2 * k < 2 * m + 1 then
          np.getD ((2 * k + 1) % (2 * m + 1)) 0 else 0) =
      (np.getD (2 * k) 0 + np.getD (2 * k + 1) 0) := by
    intro k hk
    have hk1 : k < m := Finset.mem_range.mp hk
    have hk2 : 2 * k < 2 * m + 1 := by omega
    have hk3 : 2 * k + 1 < 2 * m + 1 := by omega
    rw [Nat.mod_eq_of_lt hk2, Nat.mod_eq_of_lt hk3, if_pos hk2]
  rw [Finset.sum_congr rfl hcong, sum_pair_range_getD]
  have hlast : 2 * m % (2 * m + 1) = 2 * m := Nat.mod_eq_of_lt (by omega)
  have hwrap : (2 * m + 1) % (2 * m + 1) = 0 := Nat.mod_self _
  rw [hlast, hwrap, if_pos (by omega : 2 * m < 2 * m + 1)]
  have hsum : (∑ i ∈ Finset.range (2 * m), np.getD i 0) + np.getD (2 * m) 0 =
      ∑ i ∈ Finset.range (2 * m + 1), np.getD i 0 :=
    (Finset.sum_range_succ _ _).symm
  rw [← add_assoc, hsum, show 2 * m + 1 = np.length from hL.symm,
    sum_range_getD]

theorem innerBlocks_sum_squeeze (np : List ℚ) (c : String) :
    totalEm (innerBlocks np np.length (np.length + 1) c) =
      np.sum + np.getD 0 0 := by
  rcases Nat.even_or_odd np.length with he | ho
  · obtain ⟨m, hm⟩ := he
    have hL : np.length = 2 * m := by omega
    rw [totalEm_innerBlocks, hL]
    have hK : (2 * m + 1 + 1) / 2 = m + 1 := by omega
    rw [hK, Finset.sum_range_succ]
    have hcong : ∀ k ∈ Finset.range m,
        (np.getD ((2 * k) % (2 * m)) 0 +
          if 2 * k < 2 * m then np.getD ((2 * k + 1) % (2 * m)) 0 else 0) =
        (np.getD (2 * k) 0 + np.getD (2 * k + 1) 0) := by
      intro k hk
      have hk1 : k < m := Finset.mem_range.mp hk
      have hk2 : 2 * k < 2 * m := by omega
      have hk3 : 2 * k + 1 < 2 * m := by omega
      rw [Nat.mod_eq_of_lt hk2, Nat.mod_eq_of_lt hk3, if_pos hk2]
    rw [Finset.sum_congr rfl hcong, sum_pair_range_getD]
    rw [Nat.mod_self, if_neg (lt_irrefl (2 * m)),
      show 2 * m = np.length from hL.symm, sum_range_getD]
    ring
  · obtain ⟨m, hm⟩ := ho
    have heq : innerBlocks np np.length (np.length + 1) c =
        innerBlocks np np.length np.length c := by
      unfold innerBlocks
      rw [show (np.length + 1 + 1) / 2 = (np.length + 1) / 2 by omega]
    rw [heq, innerBlocks_sum_tile_odd np m c hm]

/-! ### Branch-selection lemmas for `generateTooltipDashHTML` -/

theorem dash_tile_eq (p : List ℚ) (color : String) (w : ℚ)
    (hlen : 2 ≤ p.length) (hsum : p.sum ≠ 0)
    (hloop : 1 < ⌊w / p.sum⌋) :
    generateTooltipDashHTML (some p) color w =
      some (tileBlocks p color w (⌊w / p.sum⌋).toNat) := by
  have hne : p ≠ [] := by
    intro h
    rw [h] at hlen
    simp at hlen
  have hden : strokePixelLength p - p.getD 0 0 = p.sum := by
    rw [strokePixelLength_eq p hne]
    ring
  simp only [generateTooltipDashHTML]
  rw [hden]
  rw [if_neg (by omega : ¬ p.length ≤ 1), if_neg hsum, if_pos hloop]

theorem dash_squeeze_eq (p : List ℚ) (color : String) (w : ℚ)
    (hlen : 2 ≤ p.length) (hsum : p.sum ≠ 0)
    (hloop : ⌊w / p.sum⌋ ≤ 1) :
    generateTooltipDashHTML (some p) color w =
      some (squeezeBlocks p color) := by
  have hne : p ≠ [] := by
    intro h
    rw [h] at hlen
    simp at hlen
  have hden : strokePixelLength p - p.getD 0 0 = p.sum := by
    rw [strokePixelLength_eq p hne]
    ring
  simp only [generateTooltipDashHTML]
  rw [hden]
  rw [if_neg (by omega : ¬ p.length ≤ 1), if_neg hsum,
    if_neg (by omega : ¬ 1 < ⌊w / p.sum⌋)]

theorem innerBlocks_pair (np : List ℚ) (c : String) (h : np.length = 2) :
    innerBlocks np 2 2 c =
      [TooltipDiv.dash (np.getD 1 0) (np.getD 0 0) c] := by
  unfold innerBlocks
  rw [h]
  norm_num [List.range_succ]

/-! ### Claim theorems for the dash renderer -/

/-- C1 (code_bug evidence): at the failing input — a pattern whose first
element equals the whole cycle length, i.e. the all-zero pattern
`[0, 0]`, with a positive budget — the code does NOT take the squeeze
branch: `loop = Math.floor(1/0) = Infinity` passes the `loop > 1` test,
the tile branch is selected, and its outer loop never terminates
(modelled by `none`).  The claim says the squeeze branch is taken with
`loopCount` set to 1. -/
theorem dash_zero_pattern_diverges :
    generateTooltipDashHTML (some [0, 0]) "#f00" 1 = none := by
  with_unfolding_all rfl

/-- C5: for an absent, empty, or single-element pattern the renderer
returns exactly the one solid swatch block, for every color and every
budget (the output does not mention the budget at all). -/
theorem dash_solid_single_swatch (sp : Option (List ℚ)) (color : String)
    (w : ℚ) (h : sp = none ∨ ∃ l, sp = some l ∧ l.length ≤ 1) :
    generateTooltipDashHTML sp color w = some [TooltipDiv.solid color] := by
  rcases h with h | ⟨l, rfl, hl⟩
  · rw [h]
    rfl
  · simp only [generateTooltipDashHTML]
    rw [if_pos hl]

/-- Witness for C5 at the concrete input `some [5]`, budget `77`. -/
theorem dash_solid_single_swatch_witness :
    ((some [(5 : ℚ)]) = none ∨
      ∃ l, (some [(5 : ℚ)]) = some l ∧ l.length ≤ 1) ∧
    generateTooltipDashHTML (some [(5 : ℚ)]) "#abc" 77 =
      some [TooltipDiv.solid "#abc"] :=
  ⟨Or.inr ⟨[5], rfl, by decide⟩,
   dash_solid_single_swatch (some [5]) "#abc" 77 (Or.inr ⟨[5], rfl, by decide⟩)⟩

/-- C3: for a two-element pattern `[a, b]` and any budget that lands in
the squeeze branch (`loopCount = floor(budget/(a+b)) ≤ 1`, then forced to
1), exactly two blocks are emitted: the first with padding `a/(2a+b)` and
margin `b/(2a+b)`, the second (the repeated closing segment) with the same
padding and zero right margin. -/
theorem dash_squeeze_pair (a b w : ℚ) (color : String)
    (hab : a + b ≠ 0) (hloop : ⌊w / (a + b)⌋ ≤ 1) :
    generateTooltipDashHTML (some [a, b]) color w =
      some [TooltipDiv.dash (b / (2 * a + b)) (a / (2 * a + b)) color,
            TooltipDiv.dash 0 (a / (2 * a + b)) color] := by
  have hs : ([a, b] : List ℚ).sum = a + b := by simp
  have hbr := dash_squeeze_eq [a, b] color w (by simp)
    (by rw [hs]; exact hab) (by rw [hs]; exact hloop)
  rw [hbr]
  have hc : strokePixelLength [a, b] = 2 * a + b := by
    rw [strokePixelLength_eq _ (by simp)]
    simp
    ring
  unfold squeezeBlocks
  rw [hc]
  norm_num [innerBlocks, List.range_succ]

/-- Witness for C3 at the claim's own input: pattern `[8, 4]`, color
`"#f00"`, budget `1`; the two emitted blocks carry padding `0.4` em and
margins `0.2` em and `0`. -/
theorem dash_squeeze_pair_witness :
    ((8 : ℚ) + 4 ≠ 0) ∧ (⌊(1 : ℚ) / (8 + 4)⌋ ≤ 1) ∧
    generateTooltipDashHTML (some [8, 4]) "#f00" 1 =
      some [TooltipDiv.dash (1/5) (2/5) "#f00",
            TooltipDiv.dash 0 (2/5) "#f00"] :=
  ⟨by norm_num, by norm_num,
   (dash_squeeze_pair 8 4 1 "#f00" (by norm_num) (by norm_num)).trans
     (by norm_num)⟩

/-- C4: for a pattern of length at least 2 (with nonzero element sum, so
that the division is finite), the code computes `cycleLength`
(`strokePixelLength`) as the sum of all elements plus the first element
again; the loop count is `floor(budget / (cycleLength - pattern[0]))`
(the denominator simplifies to the plain element sum); and when that
count exceeds 1 the tile branch runs: every element is divided by the
budget, the per-cycle segment span is the pattern length (no repeated
closing segment), and the cycle is emitted `loopCount` times, for
`loopCount * ceil(length/2)` blocks in total. -/
theorem dash_tile_branch (p : List ℚ) (color : String) (w : ℚ)
    (hlen : 2 ≤ p.length) (hsum : p.sum ≠ 0)
    (hloop : 1 < ⌊w / p.sum⌋) :
    strokePixelLength p = p.sum + p.getD 0 0 ∧
    generateTooltipDashHTML (some p) color w =
      some (tileBlocks p color w (⌊w / p.sum⌋).toNat) ∧
    (tileBlocks p color w (⌊w / p.sum⌋).toNat).length =
      (⌊w / p.sum⌋).toNat * ((p.length + 1) / 2) := by
  have hne : p ≠ [] := by
    intro h
    rw [h] at hlen
    simp at hlen
  refine ⟨strokePixelLength_eq p hne,
    dash_tile_eq p color w hlen hsum hloop, ?_⟩
  simp [tileBlocks, innerBlocks, List.length_flatten, List.map_replicate,
    List.sum_replicate, smul_eq_mul]

/-- Witness for C4 at pattern `[8, 4]`, budget `30`:
`loopCount = floor(30/12) = 2`. -/
theorem dash_tile_branch_witness :
    (2 ≤ ([8, 4] : List ℚ).length) ∧ (([8, 4] : List ℚ).sum ≠ 0) ∧
    (1 < ⌊(30 : ℚ) / ([8, 4] : List ℚ).sum⌋) ∧
    (strokePixelLength [8, 4] = ([8, 4] : List ℚ).sum +
      ([8, 4] : List ℚ).getD 0 0 ∧
    generateTooltipDashHTML (some [8, 4]) "#0f0" 30 =
      some (tileBlocks [8, 4] "#0f0" 30
        (⌊(30 : ℚ) / ([8, 4] : List ℚ).sum⌋).toNat) ∧
    (tileBlocks [8, 4] "#0f0" 30
        (⌊(30 : ℚ) / ([8, 4] : List ℚ).sum⌋).toNat).length =
      (⌊(30 : ℚ) / ([8, 4] : List ℚ).sum⌋).toNat *
        ((([8, 4] : List ℚ).length + 1) / 2)) :=
  ⟨by decide, by norm_num [List.sum_cons, List.sum_nil],
   by norm_num [List.sum_cons, List.sum_nil],
   dash_tile_branch [8, 4] "#0f0" 30 (by decide)
     (by norm_num [List.sum_cons, List.sum_nil])
     (by norm_num [List.sum_cons, List.sum_nil])⟩

set_option maxRecDepth 4000 in
/-- C6 counterexample: for the odd-length pattern `[1, 1, 1]` with budget
`100`, the tile branch runs `loopCount = floor(100/3) = 33` times and each
cycle is worth `4/100` em (the wrap of the odd pattern re-counts the first
element), so the total rendered width is `33/25 = 1.32` em.  The overflow
over the 1-em budget is `0.32` em, which exceeds even one full repeated
unit-pattern (`4/100` em) — a fortiori its rounding error — refuting the
claimed overflow bound. -/
theorem dash_overflow_counterexample :
    (generateTooltipDashHTML (some [1, 1, 1]) "#00f" 100).map totalEm =
      some (33/25) ∧ (1 : ℚ) + 4/100 < 33/25 := by
  constructor
  · with_unfolding_all rfl
  · norm_num

/-- C6 (amended): for a pattern of length at least 2 with nonnegative
elements, positive sum and positive budget, the renderer terminates and
its total rendered width is at most `1 + pattern[0]/sum` em; for
even-length patterns it never exceeds the 1-em budget at all, and in the
squeeze branch it is exactly 1 em.  (Odd-length patterns in the tile
branch may genuinely overflow by up to `pattern[0]/sum` em, which can be
many unit-patterns, as the counterexample shows.) -/
theorem dash_total_width_bound (p : List ℚ) (color : String) (w : ℚ)
    (hlen : 2 ≤ p.length) (hnn : ∀ x ∈ p, 0 ≤ x)
    (hsum : 0 < p.sum) (hw : 0 < w) :
    ∃ bs, generateTooltipDashHTML (some p) color w = some bs ∧
      totalEm bs ≤ 1 + p.getD 0 0 / p.sum ∧
      (Even p.length → totalEm bs ≤ 1) ∧
      (⌊w / p.sum⌋ ≤ 1 → totalEm bs = 1) := by
  have hne : p ≠ [] := by
    intro h
    rw [h] at hlen
    simp at hlen
  have hp0 : 0 ≤ p.getD 0 0 := hnn _ (getD_zero_mem p hne)
  have hsumne : p.sum ≠ 0 := ne_of_gt hsum
  have hwne : w ≠ 0 := ne_of_gt hw
  have hp0s : 0 ≤ p.getD 0 0 / p.sum := div_nonneg hp0 hsum.le
  by_cases hloop : 1 < ⌊w / p.sum⌋
  · -- tile branch
    refine ⟨_, dash_tile_eq p color w hlen hsumne hloop, ?_⟩
    set np := p.map (fun v => v / w) with hnp
    have hnpl : np.length = p.length := List.length_map _ _
    have hib : innerBlocks np p.length p.length color =
        innerBlocks np np.length np.length color := by rw [hnpl]
    have hnps : np.sum = p.sum / w := map_div_sum p w
    have hnp0 : np.getD 0 0 = p.getD 0 0 / w := map_div_getD_zero p w hne
    have hcast : (((⌊w / p.sum⌋).toNat : ℚ)) = ((⌊w / p.sum⌋ : ℤ) : ℚ) := by
      norm_cast
      exact Int.toNat_of_nonneg (by omega)
    have hfle : ((⌊w / p.sum⌋ : ℤ) : ℚ) ≤ w / p.sum := Int.floor_le _
    have htot : totalEm (tileBlocks p color w (⌊w / p.sum⌋).toNat) =
        ((⌊w / p.sum⌋).toNat : ℚ) *
          totalEm (innerBlocks np np.length np.length color) := by
      unfold tileBlocks
      rw [← hnp, hib, totalEm_flatten_replicate]
    rcases Nat.even_or_odd p.length with he | ho
    · -- even length: total ≤ 1
      obtain ⟨m, hm⟩ := he
      have hLe : np.length = 2 * m := by omega
      have hs := innerBlocks_sum_tile_even np m color hLe
      have hval : totalEm (tileBlocks p color w (⌊w / p.sum⌋).toNat) =
          ((⌊w / p.sum⌋).toNat : ℚ) * (p.sum / w) := by
        rw [htot, hs, hnps]
      have hone : totalEm (tileBlocks p color w (⌊w / p.sum⌋).toNat) ≤ 1 := by
        rw [hval, hcast]
        calc ((⌊w / p.sum⌋ : ℤ) : ℚ) * (p.sum / w)
            ≤ (w / p.sum) * (p.sum / w) :=
              mul_le_mul_of_nonneg_right hfle (div_nonneg hsum.le hw.le)
          _ = 1 := by field_simp
      refine ⟨le_trans hone (le_add_of_nonneg_right hp0s),
        fun _ => hone, fun habs => absurd habs (by omega)⟩
    · -- odd length: total ≤ 1 + p0/sum
      obtain ⟨m, hm⟩ := ho
      have hLo : np.length = 2 * m + 1 := by omega
      have hs := innerBlocks_sum_tile_odd np m color hLo
      have hval : totalEm (tileBlocks p color w (⌊w / p.sum⌋).toNat) =
          ((⌊w / p.sum⌋).toNat : ℚ) * ((p.sum + p.getD 0 0) / w) := by
        rw [htot, hs, hnps, hnp0, div_add_div_same]
      have hbound : totalEm (tileBlocks p color w (⌊w / p.sum⌋).toNat) ≤
          1 + p.getD 0 0 / p.sum := by
        rw [hval, hcast]
        calc ((⌊w / p.sum⌋ : ℤ) : ℚ) * ((p.sum + p.getD 0 0) / w)
            ≤ (w / p.sum) * ((p.sum + p.getD 0 0) / w) :=
              mul_le_mul_of_nonneg_right hfle
                (div_nonneg (add_nonneg hsum.le hp0) hw.le)
          _ = 1 + p.getD 0 0 / p.sum := by field_simp; ring
      refine ⟨hbound, fun he => ?_, fun habs => absurd habs (by omega)⟩
      exfalso
      obtain ⟨r, hr⟩ := he
      omega
  · -- squeeze branch
    push_neg at hloop
    refine ⟨_, dash_squeeze_eq p color w hlen hsumne hloop, ?_⟩
    have hcpos : 0 < p.sum + p.getD 0 0 := by positivity
    have hcval : strokePixelLength p = p.sum + p.getD 0 0 :=
      strokePixelLength_eq p hne
    set np := p.map (fun v => v / strokePixelLength p) with hnp
    have hnpl : np.length = p.length := List.length_map _ _
    have hib : innerBlocks np p.length (p.length + 1) color =
        innerBlocks np np.length (np.length + 1) color := by rw [hnpl]
    have hone : totalEm (squeezeBlocks p color) = 1 := by
      unfold squeezeBlocks
      rw [← hnp, hib, innerBlocks_sum_squeeze,
        map_div_sum p _, map_div_getD_zero p _ hne, div_add_div_same,
        hcval, div_self (ne_of_gt hcpos)]
    exact ⟨by rw [hone]; exact le_add_of_nonneg_right hp0s,
      fun _ => le_of_eq hone, fun _ => hone⟩

/-- Witness for the amended C6 at pattern `[8, 4]`, budget `30`
(tile branch, even length). -/
theorem dash_total_width_bound_witness :
    (2 ≤ ([8, 4] : List ℚ).length) ∧ (∀ x ∈ ([8, 4] : List ℚ), 0 ≤ x) ∧
    (0 < ([8, 4] : List ℚ).sum) ∧ ((0 : ℚ) < 30) ∧
    (∃ bs, generateTooltipDashHTML (some [8, 4]) "#0ff" 30 = some bs ∧
      totalEm bs ≤ 1 + ([8, 4] : List ℚ).getD 0 0 / ([8, 4] : List ℚ).sum ∧
      (Even ([8, 4] : List ℚ).length → totalEm bs ≤ 1) ∧
      (⌊(30 : ℚ) / ([8, 4] : List ℚ).sum⌋ ≤ 1 → totalEm bs = 1)) :=
  ⟨by decide, by norm_num, by norm_num [List.sum_cons, List.sum_nil],
   by norm_num,
   dash_total_width_bound [8, 4] "#0ff" 30 (by decide) (by norm_num)
     (by norm_num [List.sum_cons, List.sum_nil]) (by norm_num)⟩

/-- C7 counterexample: for the pattern `[8, 4]` with budget `30` the tile
branch is chosen with `loopCount = floor(30/12) = 2`, but the sum of all
emitted `(drawn + gap)` em values is `4/5` em, and `4/5` divided by the
budget is `2/75`, which is not equal to `loopCount = 2` within rounding:
it is smaller by more than one. -/
theorem dash_tiling_ratio_counterexample :
    (generateTooltipDashHTML (some [8, 4]) "#f00" 30).map totalEm =
      some (4/5) ∧
    ⌊(30 : ℚ) / (8 + 4)⌋ = 2 ∧ ((4 : ℚ)/5) / 30 + 1 < 2 := by
  refine ⟨by with_unfolding_all rfl, by norm_num, by norm_num⟩

/-- C7 (amended): for a 2-element pattern `[a, b]` and a budget large
enough that `loopCount > 1`, the sum of all emitted `(drawn + gap)` em
values, multiplied by the budget (i.e. converted back to pixels) and
divided by the pattern period `a + b`, equals the chosen tiling count
`loopCount` exactly: `totalEm * budget = loopCount * (a + b)`. -/
theorem dash_tile_total_pixels (a b w : ℚ) (color : String)
    (ha : 0 ≤ a) (hb : 0 ≤ b) (hab : 0 < a + b)
    (hloop : 1 < ⌊w / (a + b)⌋) :
    ∃ bs, generateTooltipDashHTML (some [a, b]) color w = some bs ∧
      totalEm bs * w = ((⌊w / (a + b)⌋ : ℤ) : ℚ) * (a + b) := by
  have hs : ([a, b] : List ℚ).sum = a + b := by simp
  have hw : 0 < w := by
    have h2 : ((2 : ℤ) : ℚ) ≤ w / (a + b) := Int.le_floor.mp (by omega)
    have h3 : (2 : ℚ) * (a + b) ≤ w := by
      rw [← le_div_iff₀ hab]
      exact_mod_cast h2
    nlinarith
  refine ⟨_, dash_tile_eq [a, b] color w (by simp)
    (by rw [hs]; exact ne_of_gt hab) (by rw [hs]; exact hloop), ?_⟩
  have hmap : ([a, b] : List ℚ).map (fun v => v / w) = [a / w, b / w] := by
    simp
  have hlen2 : (([a, b] : List ℚ).map (fun v => v / w)).length = 2 := by
    simp
  have hib : innerBlocks (([a, b] : List ℚ).map (fun v => v / w)) 2 2 color =
      [TooltipDiv.dash (b / w) (a / w) color] := by
    rw [innerBlocks_pair _ _ hlen2, hmap]
    norm_num
  have htot : totalEm (tileBlocks [a, b] color w
      (⌊w / ([a, b] : List ℚ).sum⌋).toNat) =
      ((⌊w / ([a, b] : List ℚ).sum⌋).toNat : ℚ) * (a / w + b / w) := by
    unfold tileBlocks
    rw [show (([a, b] : List ℚ).length) = 2 by simp, hib,
      totalEm_flatten_replicate]
    simp [totalEm, emOf]
  rw [htot, hs]
  have hcast : (((⌊w / (a + b)⌋).toNat : ℚ)) = ((⌊w / (a + b)⌋ : ℤ) : ℚ) := by
    norm_cast
    exact Int.toNat_of_nonneg (by omega)
  rw [hcast]
  field_simp

/-- Witness for the amended C7 at pattern `[8, 4]`, budget `30`:
`totalEm * 30 = 2 * 12 = 24`. -/
theorem dash_tile_total_pixels_witness :
    ((0 : ℚ) ≤ 8) ∧ ((0 : ℚ) ≤ 4) ∧ ((0 : ℚ) < 8 + 4) ∧
    (1 < ⌊(30 : ℚ) / (8 + 4)⌋) ∧
    (∃ bs, generateTooltipDashHTML (some [8, 4]) "#ff0" 30 = some bs ∧
      totalEm bs * 30 = ((⌊(30 : ℚ) / (8 + 4)⌋ : ℤ) : ℚ) * (8 + 4)) :=
  ⟨by norm_num, by norm_num, by norm_num, by norm_num,
   dash_tile_total_pixels 8 4 30 "#ff0" (by norm_num) (by norm_num)
     (by norm_num) (by norm_num)⟩

/-! ### The HTML fragment generator `tooltip.generateTooltipHTML` -/

/-- The single-quote character (codepoint 39), used inside the markup
string literals of the plugin. -/
def sq : String := String.singleton (Char.ofNat 39)

/-- The double-quote character (codepoint 34). -/
def quoteChar : Char := Char.ofNat 34

/-- Global single-character replacement: the effect of
`str.replace(/t/g, rep)` in JavaScript when the regex is one literal
character, on the character list of the string. -/
def replaceAllChar (target : Char) (rep : List Char) : List Char → List Char
  | [] => []
  | ch :: rest =>
    (if ch = target then rep else [ch]) ++ replaceAllChar target rep rest

/-- Embedding of `escapeHTML`:
`str.replace(/&/g, "&amp;").replace(/"/g, "&quot;")
    .replace(/</g, "&lt;").replace(/>/g, "&gt;")` —
four sequential global single-character replaces, applied in the order of
the source. -/
def escapeHTML (str : String) : String :=
  String.mk (replaceAllChar (Char.ofNat 62) "&gt;".data
    (replaceAllChar (Char.ofNat 60) "&lt;".data
      (replaceAllChar quoteChar "&quot;".data
        (replaceAllChar (Char.ofNat 38) "&amp;".data str.data))))

theorem mem_replaceAllChar (t : Char) (rep : List Char) (c : Char) :
    ∀ l : List Char,
      c ∈ replaceAllChar t rep l → c ∈ rep ∨ (c ∈ l ∧ c ≠ t) := by
  intro l
  induction l with
  | nil => intro h; simp [replaceAllChar] at h
  | cons a rest ih =>
    intro h
    simp only [replaceAllChar, List.mem_append] at h
    rcases h with h | h
    · by_cases ha : a = t
      · rw [if_pos ha] at h
        exact Or.inl h
      · rw [if_neg ha] at h
        simp only [List.mem_singleton] at h
        subst h
        exact Or.inr ⟨List.mem_cons_self _ _, ha⟩
    · rcases ih h with h2 | ⟨h2, h3⟩
      · exact Or.inl h2
      · exact Or.inr ⟨List.mem_cons_of_mem _ h2, h3⟩

/-- Every character of an `escapeHTML` result is different from `<`, `>`
and `"`: the escaped text can neither open a tag nor break out of a
double-quoted attribute. -/
theorem escapeHTML_no_markup (s : String) :
    ∀ c ∈ (escapeHTML s).data,
      c ≠ Char.ofNat 60 ∧ c ≠ Char.ofNat 62 ∧ c ≠ quoteChar := by
  have hgt : ∀ c ∈ "&gt;".data,
      c ≠ Char.ofNat 60 ∧ c ≠ Char.ofNat 62 ∧ c ≠ quoteChar := by decide
  have hlt : ∀ c ∈ "&lt;".data,
      c ≠ Char.ofNat 60 ∧ c ≠ Char.ofNat 62 ∧ c ≠ quoteChar := by decide
  have hq : ∀ c ∈ "&quot;".data,
      c ≠ Char.ofNat 60 ∧ c ≠ Char.ofNat 62 ∧ c ≠ quoteChar := by decide
  intro c hc
  rcases mem_replaceAllChar _ _ _ _ hc with h | ⟨h, hne4⟩
  · exact hgt c h
  rcases mem_replaceAllChar _ _ _ _ h with h2 | ⟨h2, hne3⟩
  · exact hlt c h2
  rcases mem_replaceAllChar _ _ _ _ h2 with h3 | ⟨h3, hne2⟩
  · exact hq c h3
  exact ⟨hne3, hne4, hne2⟩

/-- `canvasy` validity check.  Modelled from the spec: `Dygraph.isOK` is
host-library code that is not under `src/`; following the claim sources it
accepts exactly the values of `canvasy` that are valid finite numbers. -/
def DygraphIsOK : JSNum → Bool
  | JSNum.num _ => true
  | _ => false

/-- One selected point of the `select` event payload: `name`, `yval`,
`canvasy`, and the normalized `x`/`y` coordinates used by the floating
(`follow`) positioning. -/
structure Point where
  name : String
  yval : ℚ
  canvasy : JSNum
  x : ℚ
  y : ℚ
deriving DecidableEq, Repr

instance : Inhabited Point := ⟨⟨"", 0, JSNum.num 0, 0, 0⟩⟩

/-- Result of `g.getPropertiesForSeries(name)`: visibility, color and the
1-based axis number. -/
structure SeriesProps where
  visible : Bool
  color : String
  axis : ℕ
deriving DecidableEq, Repr

/-- The capabilities of the `Dygraph` instance `g` that
`generateTooltipHTML` consumes.  Formatter functions are external
host-supplied code; they are modelled as total functions of the
arguments that vary inside one generator call (the value and the series
name — the remaining JavaScript arguments `optsView`, `g`, `row`,
`labels.indexOf(name)` are fixed by the call context or derived from the
name).  `yValueFormatter i` is the `valueFormatter` of the options view
`yOptViews[i]` (`i = series.axis - 1`). -/
structure GraphModel where
  showLabelsOnHighlight : Bool
  labels : List String
  propsFor : String → SeriesProps
  strokePatternFor : String → Option (List ℚ)
  numAxes : ℕ
  xValueFormatter : ℚ → String
  yValueFormatter : ℕ → ℚ → String → String
  labelsShowZeroValues : Bool
  highlightSeries : String

/-- A piece of the generated fragment: literal markup/text, or one dash
swatch produced by `generateTooltipDashHTML` (kept structural, see the
module comment). -/
inductive Html where
  | text : String → Html
  | dashSwatch : List TooltipDiv → Html
deriving DecidableEq, Repr

/-- The legend line appended for one selected point (the body of the
selection loop after the two `continue` guards):
`"<br/>" + "<span" + cls + ">" + " <b><span style='color: " +
series.color + ";'>" + escapeHTML(pt.name) + "</span></b>:&#160;" +
yval + "</span>"`. -/
def selLegendLine (g : GraphModel) (pt : Point) : String :=
  "<br/>" ++ "<span" ++
    (if pt.name = g.highlightSeries then
      " class=" ++ sq ++ "highlight" ++ sq
    else "") ++ ">" ++
    " <b><span style=" ++ sq ++ "color: " ++ (g.propsFor pt.name).color ++
    ";" ++ sq ++ ">" ++ escapeHTML pt.name ++ "</span></b>:&#160;" ++
    g.yValueFormatter ((g.propsFor pt.name).axis - 1) pt.yval pt.name ++
    "</span>"

/-- Contribution of one selected point: the empty string when one of the
two `continue` guards fires (`pt.yval === 0 && !showZeros`, or
`!Dygraph.isOK(pt.canvasy)`), the legend line otherwise. -/
def selPointHTML (g : GraphModel) (pt : Point) : String :=
  if pt.yval = 0 ∧ g.labelsShowZeroValues = false then ""
  else if DygraphIsOK pt.canvasy = false then ""
  else selLegendLine g pt

/-- The selection loop `for (i = 0; i < sel_points.length; i++)`. -/
def selPointsHTML (g : GraphModel) : List Point → String
  | [] => ""
  | pt :: rest => selPointHTML g pt ++ selPointsHTML g rest

/-- The header of the selection branch:
`html = xvf(...); if (html !== '') html += ':';`. -/
def selHeader (g : GraphModel) (x : ℚ) : String :=
  if g.xValueFormatter x ≠ "" then g.xValueFormatter x ++ ":"
  else g.xValueFormatter x

/-- Opening markup of one no-selection legend entry:
`"<span style='font-weight: bold; color: " + series.color + ";'>"`. -/
def seriesSpanOpen (color : String) : String :=
  "<span style=" ++ sq ++ "font-weight: bold; color: " ++ color ++
    ";" ++ sq ++ ">"

/-- Closing markup of one no-selection legend entry:
`" <span class=\"label\">" + escapeHTML(labels[i]) + "</span></span>"`. -/
def labelSpanText (label : String) : String :=
  " <span class=\"label\">" ++ escapeHTML label ++ "</span></span>"

/-- The no-selection loop `for (i = 1; i < labels.length; i++)`, carrying
the fragment built so far.  The source separator test `html !== ''` is
expressed as `acc ≠ []`: every processed visible series appends at least
one nonempty piece, so the accumulated string is nonempty exactly when
the accumulated piece list is.  A diverging dash rendering
(`generateTooltipDashHTML = none`) makes the whole generator diverge. -/
def noSelLoop (g : GraphModel) (oneEmWidth : ℚ) :
    List String → List Html → Option (List Html)
  | [], acc => some acc
  | label :: rest, acc =>
    if (g.propsFor label).visible = false then
      noSelLoop g oneEmWidth rest acc
    else
      match generateTooltipDashHTML (g.strokePatternFor label)
          (g.propsFor label).color oneEmWidth with
      | none => none
      | some dashBlocks =>
        noSelLoop g oneEmWidth rest
          (acc ++ (if acc ≠ [] then [Html.text "<br/>"] else []) ++
            [Html.text (seriesSpanOpen (g.propsFor label).color),
             Html.dashSwatch dashBlocks,
             Html.text (labelSpanText label)])

/-- Embedding of `tooltip.generateTooltipHTML(g, x, sel_points,
oneEmWidth, row)`.  The `row` argument is only forwarded to the formatter
functions and is absorbed into the formatter model, see `GraphModel`.
`x = none` is the `typeof(x) === 'undefined'` branch (`sel_points` is not
read there; the `deselect` handler passes `undefined` for it). -/
def generateTooltipHTML (g : GraphModel) (x : Option ℚ)
    (sel_points : List Point) (oneEmWidth : ℚ) : Option (List Html) :=
  -- if (g.getOption('showLabelsOnHighlight') !== true) return '';
  if g.showLabelsOnHighlight = false then some []
  else
    match x with
    | none => noSelLoop g oneEmWidth (g.labels.drop 1) []
    | some xv => some [Html.text (selHeader g xv ++ selPointsHTML g sel_points)]

theorem string_empty_append (s : String) : "" ++ s = s := by
  cases s
  rfl

theorem string_append_ne_empty (a b : String) (ha : a.data ≠ []) :
    a ++ b ≠ "" := by
  intro h
  have h2 := congrArg String.data h
  rw [String.data_append] at h2
  rcases List.append_eq_nil.mp h2 with ⟨h3, _⟩
  exact ha h3

theorem selPointsHTML_append (g : GraphModel) (l1 l2 : List Point) :
    selPointsHTML g (l1 ++ l2) = selPointsHTML g l1 ++ selPointsHTML g l2 := by
  induction l1 with
  | nil => simp [selPointsHTML, string_empty_append]
  | cons pt rest ih =>
    show selPointHTML g pt ++ selPointsHTML g (rest ++ l2) =
      (selPointHTML g pt ++ selPointsHTML g rest) ++ selPointsHTML g l2
    rw [ih, String.append_assoc]

theorem generateTooltipHTML_some (g : GraphModel) (xv w : ℚ)
    (pts : List Point) (hshow : g.showLabelsOnHighlight = true) :
    generateTooltipHTML g (some xv) pts w =
      some [Html.text (selHeader g xv ++ selPointsHTML g pts)] := by
  unfold generateTooltipHTML
  rw [if_neg (by rw [hshow]; exact fun h => Bool.noConfusion h)]

/-- Concrete graph for the C2 counterexample: one data series `s1`, an
x-axis formatter returning `"t"`, and a y-value formatter returning the
markup string `"<x>"`. -/
def cgC2 : GraphModel :=
  { showLabelsOnHighlight := true
    labels := ["X", "s1"]
    propsFor := fun _ => ⟨true, "red", 1⟩
    strokePatternFor := fun _ => none
    numAxes := 1
    xValueFormatter := fun _ => "t"
    yValueFormatter := fun _ _ _ => "<x>"
    labelsShowZeroValues := true
    highlightSeries := "" }

/-- Concrete selected point for the C2 counterexample; its name contains
a `<`. -/
def ptC2 : Point := ⟨"a<b", 5, JSNum.num 3, 0, 0⟩

/-- C2 counterexample: with a y-value formatter returning `"<x>"`, the
generated fragment contains `<x>` verbatim — the formatter-returned text
is inserted without escaping (escaped it would read `&lt;x&gt;`, as the
second conjunct shows), refuting the claim that all formatted text is
HTML-escaped before insertion.  (The series name `a<b` does get escaped,
to `a&lt;b`.) -/
theorem formatter_value_not_escaped :
    generateTooltipHTML cgC2 (some 1) [ptC2] 10 =
      some [Html.text ("t:<br/><span> <b><span style=" ++ sq ++
        "color: red;" ++ sq ++ ">a&lt;b</span></b>:&#160;<x></span>")] ∧
    escapeHTML "<x>" = "&lt;x&gt;" := by
  constructor
  · with_unfolding_all rfl
  · with_unfolding_all rfl

/-- C2 (amended): series names are HTML-escaped before insertion —
every inserted name goes through `escapeHTML`, whose output contains no
`<`, `>` or `"` character (first conjunct, for the arbitrary string
`pt.name`) — both in a selection legend line (second conjunct: the line
decomposes around `escapeHTML pt.name`) and in a no-selection label span
(third conjunct); but the formatter-returned y-value string is
concatenated verbatim, without escaping, immediately after the name
markup (second conjunct, shape of `post`). -/
theorem names_escaped_values_verbatim (g : GraphModel) (pt : Point)
    (label : String) :
    (∀ c ∈ (escapeHTML pt.name).data,
      c ≠ Char.ofNat 60 ∧ c ≠ Char.ofNat 62 ∧ c ≠ quoteChar) ∧
    (∃ pre post, selLegendLine g pt = pre ++ (escapeHTML pt.name ++ post) ∧
      post = "</span></b>:&#160;" ++
        (g.yValueFormatter ((g.propsFor pt.name).axis - 1) pt.yval pt.name ++
         "</span>")) ∧
    (∃ pre2 post2, labelSpanText label = pre2 ++ (escapeHTML label ++ post2)) := by
  refine ⟨escapeHTML_no_markup pt.name, ?_, ?_⟩
  · refine ⟨"<br/>" ++ "<span" ++
      (if pt.name = g.highlightSeries then
        " class=" ++ sq ++ "highlight" ++ sq
      else "") ++ ">" ++
      " <b><span style=" ++ sq ++ "color: " ++ (g.propsFor pt.name).color ++
      ";" ++ sq ++ ">", _, ?_, rfl⟩
    unfold selLegendLine
    simp only [String.append_assoc]
  · exact ⟨" <span class=\"label\">", "</span></span>", by
      unfold labelSpanText
      simp only [String.append_assoc]⟩

theorem selLegendLine_ne_empty (g : GraphModel) (pt : Point) :
    selLegendLine g pt ≠ "" := by
  have hshape : selLegendLine g pt =
      "<br/>" ++ ("<span" ++
        ((if pt.name = g.highlightSeries then
            " class=" ++ sq ++ "highlight" ++ sq
          else "") ++ (">" ++
          (" <b><span style=" ++ (sq ++ ("color: " ++
          ((g.propsFor pt.name).color ++ (";" ++ (sq ++ (">" ++
          (escapeHTML pt.name ++ ("</span></b>:&#160;" ++
          (g.yValueFormatter ((g.propsFor pt.name).axis - 1) pt.yval
            pt.name ++ "</span>")))))))))))))  := by
    unfold selLegendLine
    simp only [String.append_assoc]
  rw [hshape]
  exact string_append_ne_empty _ _ (by decide)

/-- C10: a selected point whose `canvasy` fails the `Dygraph.isOK` check
contributes nothing to the fragment — removing it from the selected
points leaves the output unchanged, for every graph (in particular with
`labelsShowZeroValues` enabled) and every `yval`. -/
theorem invalid_canvasy_point_skipped (g : GraphModel) (xv w : ℚ)
    (pre post : List Point) (pt : Point)
    (hbad : DygraphIsOK pt.canvasy = false) :
    generateTooltipHTML g (some xv) (pre ++ pt :: post) w =
      generateTooltipHTML g (some xv) (pre ++ post) w := by
  have hz : selPointHTML g pt = "" := by
    unfold selPointHTML
    by_cases h1 : pt.yval = 0 ∧ g.labelsShowZeroValues = false
    · rw [if_pos h1]
    · rw [if_neg h1, if_pos hbad]
  by_cases hs : g.showLabelsOnHighlight = true
  · rw [generateTooltipHTML_some g xv w _ hs,
      generateTooltipHTML_some g xv w _ hs]
    have heq : selPointsHTML g (pre ++ pt :: post) =
        selPointsHTML g (pre ++ post) := by
      rw [selPointsHTML_append, selPointsHTML_append]
      show selPointsHTML g pre ++
          (selPointHTML g pt ++ selPointsHTML g post) = _
      rw [hz, string_empty_append]
    rw [heq]
  · have hs2 : g.showLabelsOnHighlight = false := by
      cases h : g.showLabelsOnHighlight
      · rfl
      · exact absurd h hs
    unfold generateTooltipHTML
    rw [if_pos hs2, if_pos hs2]

/-- Concrete graph for the C10 witness: zero-value display enabled. -/
def cgC10 : GraphModel :=
  { showLabelsOnHighlight := true
    labels := ["X", "s1"]
    propsFor := fun _ => ⟨true, "blue", 1⟩
    strokePatternFor := fun _ => none
    numAxes := 1
    xValueFormatter := fun _ => "hdr"
    yValueFormatter := fun _ _ _ => "v"
    labelsShowZeroValues := true
    highlightSeries := "" }

/-- Concrete point for the C10 witness: nonzero `yval`, `canvasy = NaN`. -/
def ptC10 : Point := ⟨"s1", 7, JSNum.nan, 0, 0⟩

/-- Witness for C10 at a point with `canvasy = NaN` and `yval = 7`, on a
graph with `labelsShowZeroValues` enabled. -/
theorem invalid_canvasy_point_skipped_witness :
    DygraphIsOK ptC10.canvasy = false ∧
    generateTooltipHTML cgC10 (some 1) [ptC10] 9 =
      generateTooltipHTML cgC10 (some 1) [] 9 :=
  ⟨rfl, invalid_canvasy_point_skipped cgC10 1 9 [] [] ptC10 rfl⟩

/-- C8: zero-value suppression.  With `labelsShowZeroValues` disabled, a
selected point with `yval = 0` contributes no legend line (first
conjunct: removing it leaves the output unchanged); with the option
enabled, the same point (when its `canvasy` is valid) contributes its
nonempty legend line to the fragment (second conjunct). -/
theorem zero_value_suppression (g : GraphModel) (xv w : ℚ)
    (pre post : List Point) (pt : Point)
    (hshow : g.showLabelsOnHighlight = true) (hz : pt.yval = 0) :
    (generateTooltipHTML { g with labelsShowZeroValues := false } (some xv)
        (pre ++ pt :: post) w =
      generateTooltipHTML { g with labelsShowZeroValues := false } (some xv)
        (pre ++ post) w) ∧
    (DygraphIsOK pt.canvasy = true →
      selLegendLine { g with labelsShowZeroValues := true } pt ≠ "" ∧
      generateTooltipHTML { g with labelsShowZeroValues := true } (some xv)
          (pre ++ pt :: post) w =
        some [Html.text
          (selHeader { g with labelsShowZeroValues := true } xv ++
           (selPointsHTML { g with labelsShowZeroValues := true } pre ++
            (selLegendLine { g with labelsShowZeroValues := true } pt ++
             selPointsHTML { g with labelsShowZeroValues := true } post)))]) := by
  constructor
  · -- suppression: the point contributes ""
    have hz0 : selPointHTML { g with labelsShowZeroValues := false } pt = "" := by
      unfold selPointHTML
      rw [if_pos ⟨hz, rfl⟩]
    rw [generateTooltipHTML_some { g with labelsShowZeroValues := false }
        xv w (pre ++ pt :: post) hshow,
      generateTooltipHTML_some { g with labelsShowZeroValues := false }
        xv w (pre ++ post) hshow]
    have heq : selPointsHTML { g with labelsShowZeroValues := false }
        (pre ++ pt :: post) =
        selPointsHTML { g with labelsShowZeroValues := false } (pre ++ post) := by
      rw [selPointsHTML_append, selPointsHTML_append]
      show selPointsHTML _ pre ++ (selPointHTML _ pt ++ selPointsHTML _ post) = _
      rw [hz0, string_empty_append]
    rw [heq]
  · intro hok
    constructor
    · exact selLegendLine_ne_empty { g with labelsShowZeroValues := true } pt
    · have hline : selPointHTML { g with labelsShowZeroValues := true } pt =
          selLegendLine { g with labelsShowZeroValues := true } pt := by
        unfold selPointHTML
        rw [if_neg (by rintro ⟨h1, h2⟩; exact Bool.noConfusion h2),
          if_neg (by rw [hok]; exact fun h => Bool.noConfusion h)]
      rw [generateTooltipHTML_some { g with labelsShowZeroValues := true }
        xv w (pre ++ pt :: post) hshow, selPointsHTML_append]
      show some [Html.text (selHeader _ xv ++ (selPointsHTML _ pre ++
        (selPointHTML _ pt ++ selPointsHTML _ post)))] = _
      rw [hline]

/-- Concrete graph for the C8 witness. -/
def cgC8 : GraphModel :=
  { showLabelsOnHighlight := true
    labels := ["X", "s1"]
    propsFor := fun _ => ⟨true, "green", 1⟩
    strokePatternFor := fun _ => none
    numAxes := 1
    xValueFormatter := fun _ => "hdr"
    yValueFormatter := fun _ _ _ => "0.0"
    labelsShowZeroValues := true
    highlightSeries := "" }

/-- Concrete point for the C8 witness: `yval = 0`, valid `canvasy`. -/
def ptC8 : Point := ⟨"s1", 0, JSNum.num 3, 0, 0⟩

/-- Witness for C8 at a zero-valued point with valid `canvasy`. -/
theorem zero_value_suppression_witness :
    cgC8.showLabelsOnHighlight = true ∧ ptC8.yval = 0 ∧
    ((generateTooltipHTML { cgC8 with labelsShowZeroValues := false } (some 1)
        [ptC8] 10 =
      generateTooltipHTML { cgC8 with labelsShowZeroValues := false } (some 1)
        [] 10) ∧
    (DygraphIsOK ptC8.canvasy = true →
      selLegendLine { cgC8 with labelsShowZeroValues := true } ptC8 ≠ "" ∧
      generateTooltipHTML { cgC8 with labelsShowZeroValues := true } (some 1)
          [ptC8] 10 =
        some [Html.text
          (selHeader { cgC8 with labelsShowZeroValues := true } 1 ++
           (selPointsHTML { cgC8 with labelsShowZeroValues := true } [] ++
            (selLegendLine { cgC8 with labelsShowZeroValues := true } ptC8 ++
             selPointsHTML { cgC8 with labelsShowZeroValues := true } [])))])) :=
  ⟨rfl, rfl, zero_value_suppression cgC8 1 10 [] [] ptC8 rfl rfl⟩

/-! ### The stateful handlers `select` and `deselect` -/

/-- The browser-window quantities read by the `follow` positioning:
`window.scrollX` and `window.innerWidth`. -/
structure BrowserEnv where
  scrollX : ℚ
  innerWidth : ℚ
deriving DecidableEq, Repr

/-- The `select` event payload together with the option/geometry lookups
the handler performs on `e.dygraph`:
`tooltipMode = e.dygraph.getOption('tooltip')`,
`tooltipDivWidth = e.dygraph.getOption('tooltipDivWidth')`,
`axisLabelWidthY = e.dygraph.getOptionForAxis('axisLabelWidth', 'y')`,
and the plot area `e.dygraph.plotter_.area` (`x`, `w`, `h`).
`selectedRow` is only forwarded to the formatter functions (see
`GraphModel`). -/
structure SelectEvent where
  selectedX : Option ℚ
  selectedPoints : List Point
  selectedRow : ℤ
  dygraph : GraphModel
  tooltipMode : String
  tooltipDivWidth : ℚ
  axisLabelWidthY : ℚ
  areaX : ℚ
  areaW : ℚ
  areaH : ℚ

/-- The mutable per-instance state of the plugin that the handlers touch:
the cached em width `this.one_em_width_`, and the container's
`innerHTML`, `style.display` (`displayNone` meaning `display: 'none'`)
and `style.left`/`style.top` pixel values. -/
structure TooltipState where
  one_em_width_ : ℚ
  innerHTML : List Html
  displayNone : Bool
  leftPx : ℚ
  topPx : ℚ
deriving DecidableEq, Repr

/-- The `tooltipMode === 'follow'` positioning block of `select`:
computes the floating coordinates from `points[0]`, flips the tooltip to
the other side when it would leave the window, and writes
`style.left`/`style.top`.  (JavaScript would throw on an empty points
list when reading `points[0]`; `headD` supplies a default instead, which
no proved property relies on.) -/
def selectPosition (env : BrowserEnv) (e : SelectEvent)
    (st : TooltipState) : TooltipState :=
  if e.tooltipMode = "follow" then
    let p0 := e.selectedPoints.headD default
    let leftTooltip0 := p0.x * e.areaW + 20
    let topTooltip := p0.y * e.areaH - 20
    let leftTooltip :=
      if env.scrollX + env.innerWidth < leftTooltip0 + e.tooltipDivWidth + 1
      then leftTooltip0 - 2 * 20 - e.tooltipDivWidth -
        (e.axisLabelWidthY - e.areaX)
      else leftTooltip0
    { st with leftPx := e.axisLabelWidthY + leftTooltip, topPx := topTooltip }
  else st

/-- Embedding of `tooltip.prototype.select(e)`.  In mode `'never'` the
container is hidden and nothing else happens.  Otherwise the handler
positions the container in mode `'follow'`, then generates the HTML with
the CACHED `this.one_em_width_` (never measuring or writing that field)
and shows the container.  A diverging HTML generation is `none`. -/
def tooltipSelect (env : BrowserEnv) (e : SelectEvent)
    (st : TooltipState) : Option TooltipState :=
  if e.tooltipMode = "never" then
    some { st with displayNone := true }
  else
    (generateTooltipHTML e.dygraph e.selectedX e.selectedPoints
      (selectPosition env e st).one_em_width_).map
      (fun html =>
        { selectPosition env e st with
          innerHTML := html,
          displayNone := false })

/-- Embedding of `tooltip.prototype.deselect(e)`.  The handler measures
the live container (`calculateEmWidthInDiv`, a DOM measurement supplied
here as the input `measuredEmWidth`), stores the measurement in
`this.one_em_width_`, and regenerates the default (no-selection) HTML
with it.  The handler reads `getOption('tooltip')` into a local it never
uses, and does not touch `style.display`. -/
def tooltipDeselect (e : SelectEvent) (measuredEmWidth : ℚ)
    (st : TooltipState) : Option TooltipState :=
  (generateTooltipHTML e.dygraph none [] measuredEmWidth).map
    (fun html =>
      { st with
        one_em_width_ := measuredEmWidth,
        innerHTML := html })

theorem selectPosition_one_em (env : BrowserEnv) (e : SelectEvent)
    (st : TooltipState) :
    (selectPosition env e st).one_em_width_ = st.one_em_width_ := by
  unfold selectPosition
  split
  · rfl
  · rfl

/-- C9: the cached em width is only recomputed in `deselect`, never in
`select`.  Whenever `select` completes, the stored `one_em_width_` is
unchanged, and (outside mode `'never'`) the HTML it stored was generated
with the previously cached value; whenever `deselect` completes, the
stored `one_em_width_` is the fresh measurement. -/
theorem em_width_cached (env : BrowserEnv) (e : SelectEvent) (m : ℚ)
    (st st2 st3 : TooltipState)
    (hsel : tooltipSelect env e st = some st2)
    (hdesel : tooltipDeselect e m st = some st3) :
    st2.one_em_width_ = st.one_em_width_ ∧
    (e.tooltipMode ≠ "never" →
      generateTooltipHTML e.dygraph e.selectedX e.selectedPoints
        st.one_em_width_ = some st2.innerHTML) ∧
    st3.one_em_width_ = m := by
  have hd : st3.one_em_width_ = m := by
    unfold tooltipDeselect at hdesel
    rcases Option.map_eq_some'.mp hdesel with ⟨html, _, hst3⟩
    rw [← hst3]
  unfold tooltipSelect at hsel
  by_cases hm : e.tooltipMode = "never"
  · rw [if_pos hm] at hsel
    have h2 := Option.some.inj hsel
    refine ⟨by rw [← h2], fun hne => absurd hm hne, hd⟩
  · rw [if_neg hm] at hsel
    rcases Option.map_eq_some'.mp hsel with ⟨html, hgen, hst2⟩
    rw [selectPosition_one_em] at hgen
    refine ⟨?_, fun _ => ?_, hd⟩
    · rw [← hst2]
      exact selectPosition_one_em env e st
    · rw [← hst2]
      exact hgen

/-- Concrete graph for the C9 witness. -/
def cgC9 : GraphModel :=
  { showLabelsOnHighlight := true
    labels := ["X"]
    propsFor := fun _ => ⟨true, "red", 1⟩
    strokePatternFor := fun _ => none
    numAxes := 1
    xValueFormatter := fun _ => ""
    yValueFormatter := fun _ _ _ => ""
    labelsShowZeroValues := true
    highlightSeries := "" }

/-- Concrete `select` event for the C9 witness (`tooltip: 'always'`). -/
def ceC9 : SelectEvent :=
  { selectedX := some 1
    selectedPoints := []
    selectedRow := 0
    dygraph := cgC9
    tooltipMode := "always"
    tooltipDivWidth := 250
    axisLabelWidthY := 50
    areaX := 0
    areaW := 100
    areaH := 100 }

/-- Concrete pre-state for the C9 witness: cached em width `7`. -/
def cstC9 : TooltipState := ⟨7, [], false, 0, 0⟩

/-- Witness for C9: a concrete `select` keeps `one_em_width_ = 7` and
renders with it; a concrete `deselect` with measurement `3` stores `3`. -/
theorem em_width_cached_witness :
    tooltipSelect ⟨0, 1000⟩ ceC9 cstC9 =
      some ⟨7, [Html.text ""], false, 0, 0⟩ ∧
    tooltipDeselect ceC9 3 cstC9 = some ⟨3, [], false, 0, 0⟩ ∧
    ((⟨7, [Html.text ""], false, 0, 0⟩ : TooltipState).one_em_width_ =
      cstC9.one_em_width_ ∧
    (ceC9.tooltipMode ≠ "never" →
      generateTooltipHTML ceC9.dygraph ceC9.selectedX ceC9.selectedPoints
        cstC9.one_em_width_ =
        some (⟨7, [Html.text ""], false, 0, 0⟩ : TooltipState).innerHTML) ∧
    ((⟨3, [], false, 0, 0⟩ : TooltipState).one_em_width_ = 3)) :=
  ⟨by with_unfolding_all rfl, by with_unfolding_all rfl,
   em_width_cached ⟨0, 1000⟩ ceC9 3 cstC9 ⟨7, [Html.text ""], false, 0, 0⟩
     ⟨3, [], false, 0, 0⟩ (by with_unfolding_all rfl)
     (by with_unfolding_all rfl)⟩

end DygraphsTooltip
